import Mathlib

/-!
Shallow embedding of the MLX90614 infrared-thermometer driver
(src/lib.rs of the `mlx90614` crate), together with theorems checking the
design document's claims about it.

Machine integers are modelled as `Nat` (or `Int` for signed values) with
explicit `% 2 ^ w` wherever the source's fixed-width arithmetic can wrap;
`i16`/`u16` reinterpretation casts are explicit functions.  The `f32`
payloads of the temperature value model are idealised as exact rationals.
The I2C bus and the delay primitive are external collaborators: every bus
or delay transaction the driver issues is recorded as a `BusEvent`, and
the collaborator's response to each transaction is passed in explicitly
(`Option ε` for a plain write — `none` meaning success — and
`Except ε (Nat × Nat × Nat)` for a write-then-read of three bytes).
-/

namespace Mlx90614

set_option maxRecDepth 100000

/-! ### Checksum engine: `crc8` in src/lib.rs -/

/-- One iteration of the inner loop of `crc8`: on `u8`, `crc <<= 1` wraps
modulo 256, and when the top bit was set the polynomial `0x07` is xored in
after the shift. -/
def crc8step (crc : Nat) : Nat :=
  if crc &&& 0x80 ≠ 0 then ((crc <<< 1) % 256) ^^^ 0x07 else (crc <<< 1) % 256

/-- One iteration of the outer loop of `crc8`: xor the next data byte into
the register, then run the inner loop eight times. -/
def crc8round (crc b : Nat) : Nat := crc8step^[8] (crc ^^^ b)

/-- Rust `crc8` from src/lib.rs: fold the per-byte round over the data,
starting from register value 0. -/
def crc8 (data : List Nat) : Nat := data.foldl crc8round 0

/-- Modelled from the spec (§4.1): one step of the textbook bit-serial
MSB-first CRC.  Compare the register's top bit with the incoming message
bit; shift the register left by one (dropping the top bit); xor in the
polynomial `0x07` exactly when the compared bits differed. -/
def crcBitStep (s : Nat) (b : Bool) : Nat :=
  if s.testBit 7 != b then ((s <<< 1) % 256) ^^^ 0x07 else (s <<< 1) % 256

/-- The eight bits of a byte, most significant bit first (spec §4.1:
"most-significant-bit first", no input reflection). -/
def byteBitsMSB (x : Nat) : List Bool :=
  [x.testBit 7, x.testBit 6, x.testBit 5, x.testBit 4,
   x.testBit 3, x.testBit 2, x.testBit 1, x.testBit 0]

/-- Modelled from the spec (§4.1): an 8-bit CRC with polynomial `0x07`,
most-significant-bit first, initial register value 0, no input or output
reflection and no final xor, defined as the canonical bit-serial fold over
the message bits. -/
def crc8_spec (data : List Nat) : Nat :=
  ((data.map byteBitsMSB).flatten).foldl crcBitStep 0

/-- Auxiliary for the refinement proof: the next `k` message bits held in
the top of the byte register `u`, consumed MSB-first while shifting. -/
def topBits : Nat → Nat → List Bool
  | 0, _ => []
  | k + 1, u => u.testBit 7 :: topBits k ((u <<< 1) % 256)

/-! ### Temperature value model -/

/-- Semantics of Rust's `f32 as i16` cast on the rational idealisation of
`f32`: truncate toward zero and saturate to the `i16` range. -/
def f32AsI16 (q : ℚ) : Int := max (-32768) (min 32767 (Int.tdiv q.num (q.den : Int)))

/-- Reinterpret a `u16` bit pattern as an `i16` (Rust's `as i16`). -/
def u16AsI16 (v : Nat) : Int := if v < 0x8000 then (v : Int) else (v : Int) - 0x10000

/-- Reinterpret an `i16` value as a `u16` bit pattern (Rust's `as u16`). -/
def i16AsU16 (v : Int) : Nat := (v % 0x10000).toNat

/-- Rust `Temperature` from src/lib.rs: `Raw(i16)` and the three `f32`
scales (the source spells Fahrenheit `Farenheit`). -/
inductive Temperature : Type where
  | Raw (v : Int)
  | Kelvin (v : ℚ)
  | Celsius (v : ℚ)
  | Farenheit (v : ℚ)
  deriving DecidableEq

namespace Temperature

/-- Termination measure for `into_raw` (each routed case strictly drops). -/
def rawRank : Temperature → Nat
  | .Raw _ => 0
  | .Kelvin _ => 0
  | .Celsius _ => 2
  | .Farenheit _ => 4

/-- Termination measure for `into_kelvin`. -/
def kelvinRank : Temperature → Nat
  | .Kelvin _ => 0
  | .Raw _ => 1
  | .Celsius _ => 1
  | .Farenheit _ => 3

/-- Termination measure for `into_celsius`. -/
def celsiusRank : Temperature → Nat
  | .Celsius _ => 0
  | .Kelvin _ => 0
  | .Farenheit _ => 0
  | .Raw _ => 2

/-- Termination measure for `into_farenheit`. -/
def farenheitRank : Temperature → Nat
  | .Farenheit _ => 0
  | .Celsius _ => 0
  | .Kelvin _ => 1
  | .Raw _ => 3

mutual

/-- Rust `Temperature::into_raw`.  The Celsius and Farenheit arms route
through `as_kelvin` (written here with the wrapper unfolded:
`as_kelvin t = Kelvin (into_kelvin t)`). -/
def into_raw : Temperature → Int
  | .Raw v => v
  | .Kelvin v => f32AsI16 (v * 50)
  | .Celsius v => into_raw (.Kelvin (into_kelvin (.Celsius v)))
  | .Farenheit v => into_raw (.Kelvin (into_kelvin (.Farenheit v)))
termination_by t => rawRank t
decreasing_by all_goals (simp only [rawRank, kelvinRank, celsiusRank, farenheitRank]; omega)

/-- Rust `Temperature::into_kelvin`.  The Farenheit arm routes through
`as_celsius` (wrapper unfolded). -/
def into_kelvin : Temperature → ℚ
  | .Kelvin v => v
  | .Raw v => (v : ℚ) / 50
  | .Celsius v => v - 273.15
  | .Farenheit v => into_kelvin (.Celsius (into_celsius (.Farenheit v)))
termination_by t => kelvinRank t
decreasing_by all_goals (simp only [rawRank, kelvinRank, celsiusRank, farenheitRank]; omega)

/-- Rust `Temperature::into_celsius`.  The Raw arm routes through
`as_kelvin` (wrapper unfolded). -/
def into_celsius : Temperature → ℚ
  | .Celsius v => v
  | .Kelvin v => v + 273.15
  | .Farenheit v => (v - 32) * 5 / 9
  | .Raw v => into_celsius (.Kelvin (into_kelvin (.Raw v)))
termination_by t => celsiusRank t
decreasing_by all_goals (simp only [rawRank, kelvinRank, celsiusRank, farenheitRank]; omega)

/-- Rust `Temperature::into_farenheit`.  The Raw and Kelvin arms route
through `as_celsius` (wrapper unfolded). -/
def into_farenheit : Temperature → ℚ
  | .Farenheit v => v
  | .Celsius v => v * 9 / 5 + 32
  | .Raw v => into_farenheit (.Celsius (into_celsius (.Raw v)))
  | .Kelvin v => into_farenheit (.Celsius (into_celsius (.Kelvin v)))
termination_by t => farenheitRank t
decreasing_by all_goals (simp only [rawRank, kelvinRank, celsiusRank, farenheitRank]; omega)

end

/-- Rust `Temperature::as_raw`. -/
def as_raw (t : Temperature) : Temperature := .Raw t.into_raw

/-- Rust `Temperature::as_kelvin`. -/
def as_kelvin (t : Temperature) : Temperature := .Kelvin t.into_kelvin

/-- Rust `Temperature::as_celsius`. -/
def as_celsius (t : Temperature) : Temperature := .Celsius t.into_celsius

/-- Rust `Temperature::as_farenheit`. -/
def as_farenheit (t : Temperature) : Temperature := .Farenheit t.into_farenheit

end Temperature

/-! ### Error taxonomy, registers, bus events -/

/-- Rust `Error<I2CError>` from src/lib.rs. -/
inductive Error (ε : Type) : Type where
  | I2C (e : ε)
  | Flag
  | Crc
  | InvalidAddress (address : Nat)

/-- Rust `Register` from src/lib.rs (only the registers the driver uses;
the commented-out ones are not modelled). -/
inductive Register : Type where
  | TA
  | TOBJ1
  | TOBJ2
  | TOMAX
  | TOMIN
  | ADDRESS
  | ID0
  | ID1
  | ID2
  | ID3
  deriving DecidableEq

/-- The `#[repr(u8)]` discriminant values of `Register`. -/
def Register.toByte : Register → Nat
  | .TA => 0x06
  | .TOBJ1 => 0x07
  | .TOBJ2 => 0x08
  | .TOMAX => 0x20
  | .TOMIN => 0x21
  | .ADDRESS => 0x2E
  | .ID0 => 0x3C
  | .ID1 => 0x3D
  | .ID2 => 0x3E
  | .ID3 => 0x3F

/-- Rust `DEFAULT_ADDRESS`. -/
def DEFAULT_ADDRESS : Nat := 0x5A

/-- One bus or delay transaction issued by the driver, as observed by the
external collaborators: a plain write with a byte payload, a combined
write-then-read (reading `count` bytes back), or a blocking delay. -/
inductive BusEvent : Type where
  | write (addr : Nat) (bytes : List Nat)
  | writeRead (addr : Nat) (written : List Nat) (count : Nat)
  | delayMs (ms : Nat)
  deriving DecidableEq

/-- Whether the event is a write-then-read, i.e. the only transaction kind
that reads data back from the device. -/
def BusEvent.isRead : BusEvent → Bool
  | .writeRead _ _ _ => true
  | _ => false

/-! ### Register protocol (device session)

Each driver operation is a function of the session's device address, the
operation's inputs, and the bus collaborator's response to each transaction
the operation can issue.  It returns the list of transactions actually
issued (in order) together with the operation's result. -/

variable {ε : Type}

/-- Rust `validate_address` from src/lib.rs. -/
def validate_address (address : Nat) : Except (Error ε) Unit :=
  if address > 0x80 ∨ address = 0 then .error (.InvalidAddress address)
  else .ok ()

/-- Rust `Mlx90614::with_address`: validate the address, then construct the
session; no bus transaction is issued.  The session is represented by its
validated address. -/
def with_address (address : Nat) : List BusEvent × Except (Error ε) Nat :=
  match validate_address (ε := ε) address with
  | .error e => ([], .error e)
  | .ok _ => ([], .ok address)

/-- Rust `Mlx90614::new`: `with_address` at the default address `0x5A`. -/
def new : List BusEvent × Except (Error ε) Nat := with_address DEFAULT_ADDRESS

/-- Rust `Mlx90614::i2c_read`: issue one write-then-read transaction
(write the register byte, read back `lsb`, `msb`, `pec`), recompute the CRC
over `[addr << 1, reg, (addr << 1) + 1, lsb, msb]` (`u8` arithmetic, hence
the mod 256), fail with `Error.Crc` when it differs from `pec`, and
otherwise return `(msb << 8) | lsb`. -/
def i2c_read (addr : Nat) (reg : Register) (resp : Except ε (Nat × Nat × Nat)) :
    List BusEvent × Except (Error ε) Nat :=
  let r := reg.toByte
  let ev := BusEvent.writeRead addr [r] 3
  match resp with
  | .error e => ([ev], .error (.I2C e))
  | .ok (lsb, msb, pec) =>
    let crc := crc8 [(addr <<< 1) % 256, r, ((addr <<< 1) % 256 + 1) % 256, lsb, msb]
    if crc ≠ pec then ([ev], .error .Crc)
    else ([ev], .ok ((msb <<< 8) ||| lsb))

/-- Rust `Mlx90614::i2c_write`: one plain write transaction with payload
`[reg, lsb, msb, crc]`, the CRC computed over `[addr << 1, reg, lsb, msb]`.
As in the source, it surfaces the bare transport error `ε` (not `Error ε`). -/
def i2c_write (addr : Nat) (reg : Register) (data : Nat) (resp : Option ε) :
    List BusEvent × Except ε Unit :=
  let r := reg.toByte
  let lsb := data &&& 0xFF
  let msb := data >>> 8
  let crc := crc8 [(addr <<< 1) % 256, r, lsb, msb]
  let ev := BusEvent.write addr [r, lsb, msb, crc]
  match resp with
  | some e => ([ev], .error e)
  | none => ([ev], .ok ())

/-- Rust `Mlx90614::eeprom_write`: write 0 (erase), delay 5 ms, write
`data` (program), delay 5 ms; a transport failure at either write aborts
the remaining steps.  Like the source, it surfaces the bare transport
error. -/
def eeprom_write (addr : Nat) (reg : Register) (data : Nat)
    (resp1 resp2 : Option ε) : List BusEvent × Except ε Unit :=
  let (t1, r1) := i2c_write addr reg 0 resp1
  match r1 with
  | .error e => (t1, .error e)
  | .ok _ =>
    let (t2, r2) := i2c_write addr reg data resp2
    match r2 with
    | .error e => (t1 ++ [.delayMs 5] ++ t2, .error e)
    | .ok _ => (t1 ++ [.delayMs 5] ++ t2 ++ [.delayMs 5], .ok ())

/-- Rust `Mlx90614::read_object`: read TOBJ1; if bit 15 of the raw value is
set fail with `Error.Flag`, else return `Temperature::Raw(raw as i16)`. -/
def read_object (addr : Nat) (resp : Except ε (Nat × Nat × Nat)) :
    List BusEvent × Except (Error ε) Temperature :=
  let (t, r) := i2c_read addr .TOBJ1 resp
  match r with
  | .error e => (t, .error e)
  | .ok raw =>
    if raw &&& 0x8000 ≠ 0 then (t, .error .Flag)
    else (t, .ok (.Raw (u16AsI16 raw)))

/-- Rust `Mlx90614::read_object2`: as `read_object`, on TOBJ2. -/
def read_object2 (addr : Nat) (resp : Except ε (Nat × Nat × Nat)) :
    List BusEvent × Except (Error ε) Temperature :=
  let (t, r) := i2c_read addr .TOBJ2 resp
  match r with
  | .error e => (t, .error e)
  | .ok raw =>
    if raw &&& 0x8000 ≠ 0 then (t, .error .Flag)
    else (t, .ok (.Raw (u16AsI16 raw)))

/-- Rust `Mlx90614::read_ambient`: read TA and return
`Temperature::Raw(raw as i16)` (no flag check). -/
def read_ambient (addr : Nat) (resp : Except ε (Nat × Nat × Nat)) :
    List BusEvent × Except (Error ε) Temperature :=
  let (t, r) := i2c_read addr .TA resp
  match r with
  | .error e => (t, .error e)
  | .ok raw => (t, .ok (.Raw (u16AsI16 raw)))

/-- Rust `Mlx90614::get_min`: read TOMIN and return
`Temperature::Raw(raw as i16)` (no flag check). -/
def get_min (addr : Nat) (resp : Except ε (Nat × Nat × Nat)) :
    List BusEvent × Except (Error ε) Temperature :=
  let (t, r) := i2c_read addr .TOMIN resp
  match r with
  | .error e => (t, .error e)
  | .ok raw => (t, .ok (.Raw (u16AsI16 raw)))

/-- Rust `Mlx90614::get_max`: read TOMAX and return
`Temperature::Raw(raw as i16)` (no flag check). -/
def get_max (addr : Nat) (resp : Except ε (Nat × Nat × Nat)) :
    List BusEvent × Except (Error ε) Temperature :=
  let (t, r) := i2c_read addr .TOMAX resp
  match r with
  | .error e => (t, .error e)
  | .ok raw => (t, .ok (.Raw (u16AsI16 raw)))

/-- Rust `Mlx90614::set_min`: EEPROM-write `min.into_raw() as u16` to
TOMIN; surfaces the bare transport error, as in the source. -/
def set_min (addr : Nat) (min : Temperature) (resp1 resp2 : Option ε) :
    List BusEvent × Except ε Unit :=
  eeprom_write addr .TOMIN (i16AsU16 min.into_raw) resp1 resp2

/-- Rust `Mlx90614::set_max`: EEPROM-write `max.into_raw() as u16` to
TOMAX; surfaces the bare transport error, as in the source. -/
def set_max (addr : Nat) (max : Temperature) (resp1 resp2 : Option ε) :
    List BusEvent × Except ε Unit :=
  eeprom_write addr .TOMAX (i16AsU16 max.into_raw) resp1 resp2

/-- Rust `Mlx90614::get_address`: read the ADDRESS register and keep the
low byte (`as u8`). -/
def get_address (addr : Nat) (resp : Except ε (Nat × Nat × Nat)) :
    List BusEvent × Except (Error ε) Nat :=
  let (t, r) := i2c_read addr .ADDRESS resp
  (t, r.map (fun v => v % 256))

/-- Rust `Mlx90614::set_address`: validate the new address (issuing no bus
transaction on failure), read the current ADDRESS register, keep its high
byte and replace only the low byte, then EEPROM-write the result back.
The transport error of the EEPROM write is wrapped by the `?` conversion
into `Error.I2C`. -/
def set_address (addr : Nat) (address : Nat)
    (readResp : Except ε (Nat × Nat × Nat)) (resp1 resp2 : Option ε) :
    List BusEvent × Except (Error ε) Unit :=
  match validate_address (ε := ε) address with
  | .error e => ([], .error e)
  | .ok _ =>
    let (t1, r1) := i2c_read addr .ADDRESS readResp
    match r1 with
    | .error e => (t1, .error e)
    | .ok v =>
      let address_value := (v &&& 0xFF00) ||| address
      let (t2, r2) := eeprom_write addr .ADDRESS address_value resp1 resp2
      match r2 with
      | .error e => (t1 ++ t2, .error (.I2C e))
      | .ok _ => (t1 ++ t2, .ok ())

/-- Rust `Mlx90614::get_id`: four sequential reads of ID0..ID3, assembled
as `id3 << 48 | id2 << 32 | id1 << 16 | id0` (no `u64` wrap is possible:
every word is below `2 ^ 16`, so every shifted summand is below `2 ^ 64`). -/
def get_id (addr : Nat) (resp0 resp1 resp2 resp3 : Except ε (Nat × Nat × Nat)) :
    List BusEvent × Except (Error ε) Nat :=
  let (t0, r0) := i2c_read addr .ID0 resp0
  match r0 with
  | .error e => (t0, .error e)
  | .ok id0 =>
    let (t1, r1) := i2c_read addr .ID1 resp1
    match r1 with
    | .error e => (t0 ++ t1, .error e)
    | .ok id1 =>
      let (t2, r2) := i2c_read addr .ID2 resp2
      match r2 with
      | .error e => (t0 ++ t1 ++ t2, .error e)
      | .ok id2 =>
        let (t3, r3) := i2c_read addr .ID3 resp3
        match r3 with
        | .error e => (t0 ++ t1 ++ t2 ++ t3, .error e)
        | .ok id3 =>
          (t0 ++ t1 ++ t2 ++ t3,
           .ok ((id3 <<< 48) ||| (id2 <<< 32) ||| (id1 <<< 16) ||| id0))

/-! ### Lemmas: bit-level characterisation of the checksum engine -/

theorem xor_mod_two_pow (a b n : Nat) :
    (a ^^^ b) % 2 ^ n = (a % 2 ^ n) ^^^ (b % 2 ^ n) := by
  apply Nat.eq_of_testBit_eq
  intro i
  simp only [Nat.testBit_mod_two_pow, Nat.testBit_xor]
  by_cases h : i < n <;> simp [h]

theorem xor_shiftLeft (a b n : Nat) : (a ^^^ b) <<< n = (a <<< n) ^^^ (b <<< n) := by
  apply Nat.eq_of_testBit_eq
  intro i
  simp only [Nat.testBit_shiftLeft, Nat.testBit_xor]
  by_cases h : n ≤ i <;> simp [h]

theorem and_top_bit (x : Nat) : (x &&& 0x80 ≠ 0) ↔ x.testBit 7 = true := by
  have h : (0x80 : Nat) = 2 ^ 7 := by norm_num
  rw [h, Nat.and_two_pow]
  cases hb : x.testBit 7 <;> simp [hb]

/-- Processing a byte-register state `s ^^^ u` with the code's inner-loop
step is the same as feeding the top bit of `u` into the spec's bit-serial
step and keeping the rest of `u` (shifted) xored on top. -/
theorem crc8step_xor (s u : Nat) :
    crc8step (s ^^^ u) = crcBitStep s (u.testBit 7) ^^^ ((u <<< 1) % 256) := by
  have h256 : (256 : Nat) = 2 ^ 8 := by norm_num
  have hshift : ((s ^^^ u) <<< 1) % 256 = ((s <<< 1) % 256) ^^^ ((u <<< 1) % 256) := by
    rw [xor_shiftLeft, h256, xor_mod_two_pow]
  have hc : ((s ^^^ u) &&& 0x80 ≠ 0) ↔ ((s.testBit 7 != u.testBit 7) = true) := by
    rw [and_top_bit, Nat.testBit_xor]
  have hlc : ∀ a b c : Nat, a ^^^ (b ^^^ c) = b ^^^ (a ^^^ c) := by
    intro a b c
    rw [← Nat.xor_assoc, Nat.xor_comm a b, Nat.xor_assoc]
  cases hb : (s.testBit 7 != u.testBit 7) with
  | true =>
    rw [crc8step, crcBitStep, if_pos (hc.mpr hb), if_pos hb, hshift]
    simp [Nat.xor_comm, Nat.xor_assoc, hlc]
  | false =>
    have hn : ¬ ((s ^^^ u) &&& 0x80 ≠ 0) := by
      rw [hc, hb]
      simp
    rw [crc8step, crcBitStep, if_neg hn, if_neg (by rw [hb]; simp), hshift]

/-- Invariant of the refinement proof: after `k` inner-loop steps on
`s ^^^ u`, the code's register equals the spec register fed the top `k`
bits of `u`, xored with the not-yet-consumed rest of `u`. -/
theorem crc8step_iterate (k : Nat) : ∀ s u : Nat, u < 256 →
    crc8step^[k] (s ^^^ u) =
      ((topBits k u).foldl crcBitStep s) ^^^ ((u <<< k) % 256) := by
  induction k with
  | zero =>
    intro s u hu
    simp [topBits, Nat.mod_eq_of_lt hu]
  | succ k ih =>
    intro s u hu
    rw [Function.iterate_succ_apply, crc8step_xor,
        ih (crcBitStep s (u.testBit 7)) ((u <<< 1) % 256) (Nat.mod_lt _ (by norm_num))]
    have hres : (((u <<< 1) % 256) <<< k) % 256 = (u <<< (k + 1)) % 256 := by
      simp only [Nat.shiftLeft_eq, Nat.mod_mul_mod]
      ring_nf
    rw [topBits, List.foldl_cons, hres]

theorem topBits_succ (k u : Nat) :
    topBits (k + 1) u = u.testBit 7 :: topBits k ((u <<< 1) % 256) := rfl

theorem topBits_eight (u : Nat) : topBits 8 u = byteBitsMSB u := by
  have ts : ∀ (v i : Nat), 1 ≤ i → i < 8 →
      ((v <<< 1) % 256).testBit i = v.testBit (i - 1) := by
    intro v i h1 h8
    rw [show (256 : Nat) = 2 ^ 8 by norm_num, Nat.testBit_mod_two_pow,
        Nat.testBit_shiftLeft]
    simp [h1, h8]
  rw [topBits_succ 7, topBits_succ 6, topBits_succ 5, topBits_succ 4,
      topBits_succ 3, topBits_succ 2, topBits_succ 1, topBits_succ 0]
  simp [topBits, byteBitsMSB, ts]

/-- Per-byte refinement: one outer-loop round of the code equals the
bit-serial spec fold over the byte's bits, most significant first. -/
theorem crc8round_eq_bits (s b : Nat) (hb : b < 256) :
    crc8round s b = (byteBitsMSB b).foldl crcBitStep s := by
  have h := crc8step_iterate 8 s b hb
  have hz : (b <<< 8) % 256 = 0 := by
    rw [Nat.shiftLeft_eq]
    norm_num [Nat.mul_mod_left]
  rw [crc8round, h, hz, topBits_eight, Nat.xor_zero]

theorem crc8_foldl_eq (data : List Nat) : ∀ s : Nat, (∀ b ∈ data, b < 256) →
    data.foldl crc8round s = ((data.map byteBitsMSB).flatten).foldl crcBitStep s := by
  induction data with
  | nil => intro s _; rfl
  | cons b rest ih =>
    intro s hall
    simp only [List.foldl_cons, List.map_cons, List.flatten_cons, List.foldl_append]
    rw [crc8round_eq_bits s b (hall b (by simp))]
    exact ih _ (fun x hx => hall x (by simp [hx]))

theorem crc8step_lt (x : Nat) : crc8step x < 256 := by
  have h1 : (x <<< 1) % 256 < 256 := Nat.mod_lt _ (by norm_num)
  have h2 : ((x <<< 1) % 256) ^^^ 0x07 < 256 := by
    have h8 : (256 : Nat) = 2 ^ 8 := by norm_num
    rw [h8]
    exact Nat.xor_lt_two_pow (h8 ▸ h1) (by norm_num)
  rw [crc8step]
  by_cases h : x &&& 0x80 ≠ 0 <;> simp [h, h1, h2]

theorem crc8round_lt (s b : Nat) : crc8round s b < 256 := by
  rw [crc8round, show (8 : Nat) = 7 + 1 from rfl, Function.iterate_succ_apply']
  exact crc8step_lt _

theorem crc8_foldl_lt (data : List Nat) : ∀ s : Nat, s < 256 →
    data.foldl crc8round s < 256 := by
  induction data with
  | nil => intro s hs; simpa using hs
  | cons b rest ih =>
    intro s _
    simpa using ih (crc8round s b) (crc8round_lt s b)

/-- C6: the checksum function is a pure, deterministic, never-failing
function from byte sequences to one byte (its result is below 256);
it computes CRC-8 with polynomial 0x07, most-significant-bit first,
initial value 0, no reflection and no final xor (refinement against the
bit-serial spec model `crc8_spec`); the empty input yields 0; equal
inputs yield equal outputs; and it reproduces the published check value
`0xF4` of this CRC on the standard test vector "123456789". -/
theorem claim_C6_checksum_engine :
    crc8 [] = 0 ∧
    (∀ data : List Nat, crc8 data < 256) ∧
    (∀ d1 d2 : List Nat, d1 = d2 → crc8 d1 = crc8 d2) ∧
    (∀ data : List Nat, (∀ b ∈ data, b < 256) → crc8 data = crc8_spec data) ∧
    crc8 [49, 50, 51, 52, 53, 54, 55, 56, 57] = 0xF4 := by
  refine ⟨rfl, ?_, ?_, ?_, ?_⟩
  · intro data
    exact crc8_foldl_lt data 0 (by norm_num)
  · intro d1 d2 h
    rw [h]
  · intro data hall
    exact crc8_foldl_eq data 0 hall
  · decide

/-- Concrete instantiation of `claim_C6_checksum_engine`: the refinement
and determinism conjuncts applied to explicit byte lists. -/
theorem claim_C6_checksum_engine_witness :
    crc8 [0xB4, 0x07, 0xB5, 0x00, 0x81] = crc8_spec [0xB4, 0x07, 0xB5, 0x00, 0x81] ∧
    crc8 [1, 2] = crc8 [1, 2] :=
  ⟨claim_C6_checksum_engine.2.2.2.1 [0xB4, 0x07, 0xB5, 0x00, 0x81] (by decide),
   claim_C6_checksum_engine.2.2.1 [1, 2] [1, 2] rfl⟩

/-! ### Shared arithmetic and protocol lemmas -/

theorem shiftLeft_or_eq_add (a b n : Nat) (hb : b < 2 ^ n) :
    (a <<< n) ||| b = a * 2 ^ n + b :=
  calc (a <<< n) ||| b = (2 ^ n * a) ||| b := by rw [Nat.shiftLeft_eq, Nat.mul_comm]
    _ = 2 ^ n * a + b := (Nat.mul_add_lt_is_or hb a).symm
    _ = a * 2 ^ n + b := by rw [Nat.mul_comm]

theorem and_bit15 (x : Nat) : (x &&& 0x8000 ≠ 0) ↔ x.testBit 15 = true := by
  have h : (0x8000 : Nat) = 2 ^ 15 := by norm_num
  rw [h, Nat.and_two_pow]
  cases hb : x.testBit 15 <;> simp [hb]

/-- The trace of `i2c_read` is always the single write-then-read
transaction, whatever the collaborator answers. -/
theorem i2c_read_fst (addr : Nat) (reg : Register)
    (resp : Except ε (Nat × Nat × Nat)) :
    (i2c_read (ε := ε) addr reg resp).1 = [.writeRead addr [reg.toByte] 3] := by
  rcases resp with e | ⟨lsb, msb, pec⟩
  · rfl
  · simp only [i2c_read]
    split <;> rfl

theorem i2c_read_eq_pair (addr : Nat) (reg : Register)
    (resp : Except ε (Nat × Nat × Nat)) (v : Nat)
    (h : (i2c_read (ε := ε) addr reg resp).2 = .ok v) :
    i2c_read (ε := ε) addr reg resp = ([.writeRead addr [reg.toByte] 3], .ok v) := by
  have h1 := i2c_read_fst (ε := ε) addr reg resp
  exact Prod.ext h1 h

theorem i2c_read_eq_pair_error (addr : Nat) (reg : Register)
    (resp : Except ε (Nat × Nat × Nat)) (e : Error ε)
    (h : (i2c_read (ε := ε) addr reg resp).2 = .error e) :
    i2c_read (ε := ε) addr reg resp =
      ([.writeRead addr [reg.toByte] 3], .error e) := by
  have h1 := i2c_read_fst (ε := ε) addr reg resp
  exact Prod.ext h1 h

/-! ### C1: the Kelvin/Celsius pivot conversions -/

/-- C1 (code evaluated at the failing inputs): the code's conversions
between Kelvin and Celsius apply the offset 273.15 with the signs
swapped relative to the spec formula `celsius = kelvin - 273.15`:
`into_celsius (Kelvin v)` yields `v + 273.15` (so Kelvin 300 becomes
573.15 °C instead of 26.85 °C) and `into_kelvin (Celsius v)` yields
`v - 273.15` (so Celsius 25 becomes -248.15 K instead of 298.15 K);
routed conversions inherit the swap (Raw v becomes `v / 50 + 273.15` °C
instead of `v / 50 - 273.15` °C). -/
theorem claim_C1_kelvin_celsius_pivot :
    Temperature.into_celsius (.Kelvin 300) = 573.15 ∧
    Temperature.into_celsius (.Kelvin 300) ≠ 300 - 273.15 ∧
    Temperature.into_kelvin (.Celsius 25) = -248.15 ∧
    Temperature.into_kelvin (.Celsius 25) ≠ 25 + 273.15 ∧
    (∀ v : ℚ, Temperature.into_celsius (.Kelvin v) = v + 273.15) ∧
    (∀ v : ℚ, Temperature.into_kelvin (.Celsius v) = v - 273.15) ∧
    (∀ v : Int, Temperature.into_celsius (.Raw v) = (v : ℚ) / 50 + 273.15) := by
  refine ⟨?_, ?_, ?_, ?_, ?_, ?_, ?_⟩
  · simp [Temperature.into_celsius]
    norm_num
  · simp [Temperature.into_celsius]
    norm_num
  · simp [Temperature.into_kelvin]
    norm_num
  · simp [Temperature.into_kelvin]
    norm_num
  · intro v
    simp [Temperature.into_celsius]
  · intro v
    simp [Temperature.into_kelvin]
  · intro v
    simp [Temperature.into_celsius, Temperature.into_kelvin]

/-! ### C2: checksum-verified register reads -/

/-- C2: a register read that receives bytes `(lsb, msb, pec)` fails with
the checksum error exactly when the CRC recomputed over
`[addr << 1, reg, (addr << 1) + 1, lsb, msb]` differs from `pec` (in which
case no value is returned), and otherwise returns the little-endian value
`(msb << 8) | lsb = msb * 256 + lsb`. -/
theorem claim_C2_read_checksum (ε : Type) (addr : Nat) (reg : Register)
    (lsb msb pec : Nat) (hl : lsb < 256) :
    ((i2c_read (ε := ε) addr reg (.ok (lsb, msb, pec))).2 = .error .Crc ↔
      crc8 [(addr <<< 1) % 256, reg.toByte,
            ((addr <<< 1) % 256 + 1) % 256, lsb, msb] ≠ pec) ∧
    (crc8 [(addr <<< 1) % 256, reg.toByte,
           ((addr <<< 1) % 256 + 1) % 256, lsb, msb] = pec →
      (i2c_read (ε := ε) addr reg (.ok (lsb, msb, pec))).2 =
        .ok (msb * 256 + lsb)) := by
  have hv : (msb <<< 8) ||| lsb = msb * 256 + lsb := by
    have h := shiftLeft_or_eq_add msb lsb 8 (by simpa using hl)
    simpa using h
  simp only [Nat.mod_add_mod]
  constructor
  · by_cases h : crc8 [(addr <<< 1) % 256, reg.toByte,
        (addr <<< 1 + 1) % 256, lsb, msb] = pec
    · simp [i2c_read, h]
    · simp [i2c_read, h]
  · intro h
    simp [i2c_read, h, hv]

/-- Concrete instantiation of `claim_C2_read_checksum`: at address `0x5A`,
register TOBJ1, received bytes `(1, 2, 0)`, the recomputed CRC differs
from 0, so the read fails with the checksum error. -/
theorem claim_C2_read_checksum_witness :
    (i2c_read (ε := Unit) 0x5A Register.TOBJ1 (.ok (1, 2, 0))).2 =
      .error .Crc := by
  have h := claim_C2_read_checksum Unit 0x5A Register.TOBJ1 1 2 0 (by norm_num)
  exact h.1.mpr (by decide)

/-! ### C4 and C10: the flag bit on object reads, signed reinterpretation elsewhere -/

/-- The read primitive fails only with the transport or checksum error:
it never produces the flag error itself. -/
theorem i2c_read_no_flag (addr : Nat) (reg : Register)
    (resp : Except ε (Nat × Nat × Nat)) :
    (i2c_read (ε := ε) addr reg resp).2 ≠ .error .Flag := by
  rcases resp with e | ⟨l, m, p⟩
  · simp [i2c_read]
  · simp only [i2c_read, Nat.mod_add_mod]
    by_cases hc : crc8 [(addr <<< 1) % 256, reg.toByte,
        (addr <<< 1 + 1) % 256, l, m] = p
    · simp [hc]
    · simp [hc]

theorem testBit15_false_lt (v : Nat) (hv : v < 65536) (h : v.testBit 15 = false) :
    v < 32768 := by
  rw [Nat.testBit_to_div_mod] at h
  norm_num at h
  omega

theorem testBit15_true_ge (v : Nat) (h : v.testBit 15 = true) : 32768 ≤ v := by
  rw [Nat.testBit_to_div_mod] at h
  norm_num at h
  omega

/-- C4: an object-temperature read (TOBJ1 via `read_object`, TOBJ2 via
`read_object2`) whose checksum-verified raw value has bit 15 set fails
with the flag error and returns no temperature; with bit 15 clear it
returns the raw value as a `Raw` temperature. -/
theorem claim_C4_object_flag (ε : Type) (addr : Nat)
    (r1 r2 : Except ε (Nat × Nat × Nat)) (v w : Nat)
    (hv : v < 65536) (hw : w < 65536)
    (h1 : (i2c_read (ε := ε) addr .TOBJ1 r1).2 = .ok v)
    (h2 : (i2c_read (ε := ε) addr .TOBJ2 r2).2 = .ok w) :
    (v.testBit 15 = true → (read_object (ε := ε) addr r1).2 = .error .Flag) ∧
    (v.testBit 15 = false →
      (read_object (ε := ε) addr r1).2 = .ok (.Raw (v : Int))) ∧
    (w.testBit 15 = true → (read_object2 (ε := ε) addr r2).2 = .error .Flag) ∧
    (w.testBit 15 = false →
      (read_object2 (ε := ε) addr r2).2 = .ok (.Raw (w : Int))) := by
  have e1 := i2c_read_eq_pair (ε := ε) addr .TOBJ1 r1 v h1
  have e2 := i2c_read_eq_pair (ε := ε) addr .TOBJ2 r2 w h2
  refine ⟨?_, ?_, ?_, ?_⟩
  · intro hbit
    have hcond : v &&& 0x8000 ≠ 0 := (and_bit15 v).mpr hbit
    simp [read_object, e1, hcond]
  · intro hbit
    have hcond : ¬ (v &&& 0x8000 ≠ 0) := by
      rw [and_bit15, hbit]
      simp
    have hlt : v < 32768 := testBit15_false_lt v hv hbit
    simp [read_object, e1, hcond, u16AsI16, hlt]
  · intro hbit
    have hcond : w &&& 0x8000 ≠ 0 := (and_bit15 w).mpr hbit
    simp [read_object2, e2, hcond]
  · intro hbit
    have hcond : ¬ (w &&& 0x8000 ≠ 0) := by
      rw [and_bit15, hbit]
      simp
    have hlt : w < 32768 := testBit15_false_lt w hw hbit
    simp [read_object2, e2, hcond, u16AsI16, hlt]

/-- Concrete instantiation of `claim_C4_object_flag`: at address `0x5A`,
a TOBJ1 read delivering `0x8100` (bit 15 set, checksum valid) fails with
the flag error, and a TOBJ2 read delivering `0x1234` (bit 15 clear,
checksum valid) returns `Raw 0x1234`. -/
theorem claim_C4_object_flag_witness :
    (read_object (ε := Unit) 0x5A
      (.ok (0x00, 0x81, crc8 [0xB4, 0x07, 0xB5, 0x00, 0x81]))).2 = .error .Flag ∧
    (read_object2 (ε := Unit) 0x5A
      (.ok (0x34, 0x12, crc8 [0xB4, 0x08, 0xB5, 0x34, 0x12]))).2 =
        .ok (.Raw 0x1234) := by
  have h := claim_C4_object_flag Unit 0x5A
    (.ok (0x00, 0x81, crc8 [0xB4, 0x07, 0xB5, 0x00, 0x81]))
    (.ok (0x34, 0x12, crc8 [0xB4, 0x08, 0xB5, 0x34, 0x12]))
    0x8100 0x1234 (by norm_num) (by norm_num) rfl rfl
  refine ⟨h.1 (by decide), ?_⟩
  have h4 := h.2.2.2 (by decide)
  simpa using h4

/-- C10: `read_ambient`, `get_min` and `get_max` never fail with the flag
error; a checksum-verified value is always returned reinterpreted as a
signed (`i16`) raw count, so a value with bit 15 set surfaces as the
negative count `v - 65536` rather than as an error. -/
theorem claim_C10_signed_reads (ε : Type) (addr : Nat)
    (rA rMin rMax : Except ε (Nat × Nat × Nat)) (vA vMin vMax : Nat)
    (hA : (i2c_read (ε := ε) addr .TA rA).2 = .ok vA)
    (hMin : (i2c_read (ε := ε) addr .TOMIN rMin).2 = .ok vMin)
    (hMax : (i2c_read (ε := ε) addr .TOMAX rMax).2 = .ok vMax) :
    (∀ r : Except ε (Nat × Nat × Nat),
      (read_ambient (ε := ε) addr r).2 ≠ .error .Flag) ∧
    (∀ r : Except ε (Nat × Nat × Nat),
      (get_min (ε := ε) addr r).2 ≠ .error .Flag) ∧
    (∀ r : Except ε (Nat × Nat × Nat),
      (get_max (ε := ε) addr r).2 ≠ .error .Flag) ∧
    (read_ambient (ε := ε) addr rA).2 = .ok (.Raw (u16AsI16 vA)) ∧
    (get_min (ε := ε) addr rMin).2 = .ok (.Raw (u16AsI16 vMin)) ∧
    (get_max (ε := ε) addr rMax).2 = .ok (.Raw (u16AsI16 vMax)) ∧
    (∀ v : Nat, v.testBit 15 = true → v < 65536 →
      u16AsI16 v = (v : Int) - 65536 ∧ u16AsI16 v < 0) := by
  have eA := i2c_read_eq_pair (ε := ε) addr .TA rA vA hA
  have eMin := i2c_read_eq_pair (ε := ε) addr .TOMIN rMin vMin hMin
  have eMax := i2c_read_eq_pair (ε := ε) addr .TOMAX rMax vMax hMax
  refine ⟨?_, ?_, ?_, ?_, ?_, ?_, ?_⟩
  · intro r
    have hnf := i2c_read_no_flag (ε := ε) addr Register.TA r
    rcases hE : (i2c_read (ε := ε) addr Register.TA r).2 with e | v
    · have e1 := i2c_read_eq_pair_error (ε := ε) addr Register.TA r e hE
      rw [hE] at hnf
      simp [read_ambient, e1]
      simpa using hnf
    · have e1 := i2c_read_eq_pair (ε := ε) addr Register.TA r v hE
      simp [read_ambient, e1]
  · intro r
    have hnf := i2c_read_no_flag (ε := ε) addr Register.TOMIN r
    rcases hE : (i2c_read (ε := ε) addr Register.TOMIN r).2 with e | v
    · have e1 := i2c_read_eq_pair_error (ε := ε) addr Register.TOMIN r e hE
      rw [hE] at hnf
      simp [get_min, e1]
      simpa using hnf
    · have e1 := i2c_read_eq_pair (ε := ε) addr Register.TOMIN r v hE
      simp [get_min, e1]
  · intro r
    have hnf := i2c_read_no_flag (ε := ε) addr Register.TOMAX r
    rcases hE : (i2c_read (ε := ε) addr Register.TOMAX r).2 with e | v
    · have e1 := i2c_read_eq_pair_error (ε := ε) addr Register.TOMAX r e hE
      rw [hE] at hnf
      simp [get_max, e1]
      simpa using hnf
    · have e1 := i2c_read_eq_pair (ε := ε) addr Register.TOMAX r v hE
      simp [get_max, e1]
  · simp [read_ambient, eA]
  · simp [get_min, eMin]
  · simp [get_max, eMax]
  · intro v hbit hlt
    have hge : 32768 ≤ v := testBit15_true_ge v hbit
    have hne : ¬ (v < 32768) := by omega
    constructor
    · simp [u16AsI16, hne]
    · simp [u16AsI16, hne]
      omega

/-- Concrete instantiation of `claim_C10_signed_reads`: at address `0x5A`,
an ambient read delivering `0x8100` (bit 15 set, checksum valid) returns
`Raw (-32512)` instead of failing, and min/max reads delivering `0x1234`
return `Raw 0x1234`. -/
theorem claim_C10_signed_reads_witness :
    (read_ambient (ε := Unit) 0x5A
      (.ok (0x00, 0x81, crc8 [0xB4, 0x06, 0xB5, 0x00, 0x81]))).2 =
        .ok (.Raw (-32512)) ∧
    (get_min (ε := Unit) 0x5A
      (.ok (0x34, 0x12, crc8 [0xB4, 0x21, 0xB5, 0x34, 0x12]))).2 =
        .ok (.Raw 0x1234) := by
  have h := claim_C10_signed_reads Unit 0x5A
    (.ok (0x00, 0x81, crc8 [0xB4, 0x06, 0xB5, 0x00, 0x81]))
    (.ok (0x34, 0x12, crc8 [0xB4, 0x21, 0xB5, 0x34, 0x12]))
    (.ok (0x34, 0x12, crc8 [0xB4, 0x20, 0xB5, 0x34, 0x12]))
    0x8100 0x1234 0x1234 rfl rfl rfl
  constructor
  · rw [h.2.2.2.1]
    norm_num [u16AsI16]
  · rw [h.2.2.2.2.1]
    norm_num [u16AsI16]

/-! ### C3: the EEPROM write sequence -/

theorem and_FF_eq_mod (v : Nat) : v &&& 0xFF = v % 256 := by
  have h := Nat.and_pow_two_sub_one_eq_mod v 8
  norm_num at h
  exact h

theorem shiftRight8_eq_div (v : Nat) : v >>> 8 = v / 256 := by
  rw [Nat.shiftRight_eq_div_pow]

/-- C3: an EEPROM write of `v` to `reg` issues exactly the trace
erase-write (value 0), 5 ms delay, program-write (value `v`), 5 ms delay;
it contains no read-back transaction anywhere; and a transport failure at
either write surfaces that error immediately, skipping every remaining
step. -/
theorem claim_C3_eeprom_write_sequence (ε : Type) (addr : Nat) (reg : Register)
    (v : Nat) (_hv : v < 65536) (e : ε) :
    (eeprom_write (ε := ε) addr reg v none none =
      ([.write addr [reg.toByte, 0, 0, crc8 [(addr <<< 1) % 256, reg.toByte, 0, 0]],
        .delayMs 5,
        .write addr [reg.toByte, v % 256, v / 256,
          crc8 [(addr <<< 1) % 256, reg.toByte, v % 256, v / 256]],
        .delayMs 5], .ok ())) ∧
    (∀ r2 : Option ε, eeprom_write (ε := ε) addr reg v (some e) r2 =
      ([.write addr [reg.toByte, 0, 0, crc8 [(addr <<< 1) % 256, reg.toByte, 0, 0]]],
       .error e)) ∧
    (eeprom_write (ε := ε) addr reg v none (some e) =
      ([.write addr [reg.toByte, 0, 0, crc8 [(addr <<< 1) % 256, reg.toByte, 0, 0]],
        .delayMs 5,
        .write addr [reg.toByte, v % 256, v / 256,
          crc8 [(addr <<< 1) % 256, reg.toByte, v % 256, v / 256]]],
       .error e)) ∧
    (∀ r1 r2 : Option ε, ∀ ev ∈ (eeprom_write (ε := ε) addr reg v r1 r2).1,
      ev.isRead = false) := by
  have hl : v &&& 0xFF = v % 256 := and_FF_eq_mod v
  have hm : v >>> 8 = v / 256 := shiftRight8_eq_div v
  refine ⟨?_, ?_, ?_, ?_⟩
  · simp [eeprom_write, i2c_write, hl, hm]
  · intro r2
    simp [eeprom_write, i2c_write]
  · simp [eeprom_write, i2c_write, hl, hm]
  · intro r1 r2
    rcases r1 with _ | e1 <;> rcases r2 with _ | e2 <;>
      simp [eeprom_write, i2c_write, BusEvent.isRead]

/-- Concrete instantiation of `claim_C3_eeprom_write_sequence`: writing
`0x1234` to TOMIN at address `0x5A` with both writes succeeding yields
exactly the erase/delay/program/delay trace. -/
theorem claim_C3_eeprom_write_sequence_witness :
    eeprom_write (ε := Unit) 0x5A Register.TOMIN 0x1234 none none =
      ([.write 0x5A [0x21, 0, 0, crc8 [0xB4, 0x21, 0, 0]],
        .delayMs 5,
        .write 0x5A [0x21, 0x34, 0x12, crc8 [0xB4, 0x21, 0x34, 0x12]],
        .delayMs 5], .ok ()) := by
  have h := (claim_C3_eeprom_write_sequence Unit 0x5A Register.TOMIN 0x1234
    (by norm_num) ()).1
  simpa using h

/-! ### C5: address validation -/

/-- C5: address validation fails with `InvalidAddress a` exactly when
`a = 0` or `a > 0x80` (so every address in `1 ..= 0x80` is accepted), and
both `set_address` and session construction fail before issuing any bus
transaction when validation fails. -/
theorem claim_C5_address_validation (ε : Type) (addr a : Nat) :
    ((validate_address (ε := ε) a = .error (.InvalidAddress a)) ↔
      (a = 0 ∨ a > 0x80)) ∧
    ((validate_address (ε := ε) a = .ok ()) ↔ (1 ≤ a ∧ a ≤ 0x80)) ∧
    (∀ (rr : Except ε (Nat × Nat × Nat)) (r1 r2 : Option ε),
      (a = 0 ∨ a > 0x80) →
        set_address (ε := ε) addr a rr r1 r2 = ([], .error (.InvalidAddress a))) ∧
    ((a = 0 ∨ a > 0x80) →
      with_address (ε := ε) a = ([], .error (.InvalidAddress a))) := by
  have hcond : (a > 0x80 ∨ a = 0) ↔ (a = 0 ∨ a > 0x80) := by tauto
  refine ⟨?_, ?_, ?_, ?_⟩
  · constructor
    · intro h
      by_contra hc
      push_neg at hc
      have : ¬ (a > 0x80 ∨ a = 0) := by omega
      simp [validate_address, this] at h
    · intro h
      have : a > 0x80 ∨ a = 0 := hcond.mpr h
      simp [validate_address, this]
  · constructor
    · intro h
      by_cases hb : a > 0x80 ∨ a = 0
      · simp [validate_address, hb] at h
      · omega
    · intro h
      have : ¬ (a > 0x80 ∨ a = 0) := by omega
      simp [validate_address, this]
  · intro rr r1 r2 h
    have : a > 0x80 ∨ a = 0 := hcond.mpr h
    simp [set_address, validate_address, this]
  · intro h
    have : a > 0x80 ∨ a = 0 := hcond.mpr h
    simp [with_address, validate_address, this]

/-- Concrete instantiation of `claim_C5_address_validation`: address 0
and address 0x81 are rejected (0x81 before any bus transaction in
`set_address`), addresses 1 and 0x80 are accepted. -/
theorem claim_C5_address_validation_witness :
    validate_address (ε := Unit) 0 = .error (.InvalidAddress 0) ∧
    validate_address (ε := Unit) 1 = .ok () ∧
    validate_address (ε := Unit) 0x80 = .ok () ∧
    set_address (ε := Unit) 0x5A 0x81 (.error ()) none none =
      ([], .error (.InvalidAddress 0x81)) :=
  ⟨(claim_C5_address_validation Unit 0x5A 0).1.mpr (by norm_num),
   (claim_C5_address_validation Unit 0x5A 1).2.1.mpr (by norm_num),
   (claim_C5_address_validation Unit 0x5A 0x80).2.1.mpr (by norm_num),
   (claim_C5_address_validation Unit 0x5A 0x81).2.2.1 (.error ()) none none
     (by norm_num)⟩

/-! ### C7: identity assembly -/

theorem id_assemble (w0 w1 w2 w3 : Nat) (h0 : w0 < 65536) (h1 : w1 < 65536)
    (h2 : w2 < 65536) (_h3 : w3 < 65536) :
    (w3 <<< 48) ||| (w2 <<< 32) ||| (w1 <<< 16) ||| w0 =
      w3 * 2 ^ 48 + w2 * 2 ^ 32 + w1 * 2 ^ 16 + w0 := by
  have h0' : w0 < 2 ^ 16 := by simpa using h0
  have e1 : (w1 <<< 16) ||| w0 = w1 * 2 ^ 16 + w0 :=
    shiftLeft_or_eq_add w1 w0 16 h0'
  have b1 : w1 * 2 ^ 16 + w0 < 2 ^ 32 := by
    norm_num
    omega
  have e2 : (w2 <<< 32) ||| ((w1 <<< 16) ||| w0) =
      w2 * 2 ^ 32 + (w1 * 2 ^ 16 + w0) := by
    rw [e1]
    exact shiftLeft_or_eq_add w2 _ 32 b1
  have b2 : w2 * 2 ^ 32 + (w1 * 2 ^ 16 + w0) < 2 ^ 48 := by
    norm_num
    omega
  have e3 : (w3 <<< 48) ||| ((w2 <<< 32) ||| ((w1 <<< 16) ||| w0)) =
      w3 * 2 ^ 48 + (w2 * 2 ^ 32 + (w1 * 2 ^ 16 + w0)) := by
    rw [e2]
    exact shiftLeft_or_eq_add w3 _ 48 b2
  calc (w3 <<< 48) ||| (w2 <<< 32) ||| (w1 <<< 16) ||| w0
      = (w3 <<< 48) ||| ((w2 <<< 32) ||| ((w1 <<< 16) ||| w0)) := by
        rw [Nat.lor_assoc, Nat.lor_assoc]
    _ = w3 * 2 ^ 48 + (w2 * 2 ^ 32 + (w1 * 2 ^ 16 + w0)) := e3
    _ = w3 * 2 ^ 48 + w2 * 2 ^ 32 + w1 * 2 ^ 16 + w0 := by ring

/-- C7: `get_id` reads ID0..ID3 sequentially and assembles the four
checksum-verified words into a 64-bit value with word 0 in the lowest 16
bits and word 3 in the highest 16 bits
(`w3 * 2^48 + w2 * 2^32 + w1 * 2^16 + w0`). -/
theorem claim_C7_identity_assembly (ε : Type) (addr : Nat)
    (r0 r1 r2 r3 : Except ε (Nat × Nat × Nat)) (w0 w1 w2 w3 : Nat)
    (b0 : w0 < 65536) (b1 : w1 < 65536) (b2 : w2 < 65536) (b3 : w3 < 65536)
    (h0 : (i2c_read (ε := ε) addr .ID0 r0).2 = .ok w0)
    (h1 : (i2c_read (ε := ε) addr .ID1 r1).2 = .ok w1)
    (h2 : (i2c_read (ε := ε) addr .ID2 r2).2 = .ok w2)
    (h3 : (i2c_read (ε := ε) addr .ID3 r3).2 = .ok w3) :
    (get_id (ε := ε) addr r0 r1 r2 r3).2 =
      .ok (w3 * 2 ^ 48 + w2 * 2 ^ 32 + w1 * 2 ^ 16 + w0) ∧
    (get_id (ε := ε) addr r0 r1 r2 r3).1 =
      [.writeRead addr [0x3C] 3, .writeRead addr [0x3D] 3,
       .writeRead addr [0x3E] 3, .writeRead addr [0x3F] 3] := by
  have e0 := i2c_read_eq_pair (ε := ε) addr .ID0 r0 w0 h0
  have e1 := i2c_read_eq_pair (ε := ε) addr .ID1 r1 w1 h1
  have e2 := i2c_read_eq_pair (ε := ε) addr .ID2 r2 w2 h2
  have e3 := i2c_read_eq_pair (ε := ε) addr .ID3 r3 w3 h3
  have ha := id_assemble w0 w1 w2 w3 b0 b1 b2 b3
  constructor <;> simp [get_id, e0, e1, e2, e3, ha, Register.toByte]

/-- Concrete instantiation of `claim_C7_identity_assembly`: words
`0x1111, 0x2222, 0x3333, 0x4444` assemble to `0x4444333322221111`. -/
theorem claim_C7_identity_assembly_witness :
    (get_id (ε := Unit) 0x5A
      (.ok (0x11, 0x11, crc8 [0xB4, 0x3C, 0xB5, 0x11, 0x11]))
      (.ok (0x22, 0x22, crc8 [0xB4, 0x3D, 0xB5, 0x22, 0x22]))
      (.ok (0x33, 0x33, crc8 [0xB4, 0x3E, 0xB5, 0x33, 0x33]))
      (.ok (0x44, 0x44, crc8 [0xB4, 0x3F, 0xB5, 0x44, 0x44]))).2 =
      .ok 0x4444333322221111 := by
  have h := claim_C7_identity_assembly Unit 0x5A
    (.ok (0x11, 0x11, crc8 [0xB4, 0x3C, 0xB5, 0x11, 0x11]))
    (.ok (0x22, 0x22, crc8 [0xB4, 0x3D, 0xB5, 0x22, 0x22]))
    (.ok (0x33, 0x33, crc8 [0xB4, 0x3E, 0xB5, 0x33, 0x33]))
    (.ok (0x44, 0x44, crc8 [0xB4, 0x3F, 0xB5, 0x44, 0x44]))
    0x1111 0x2222 0x3333 0x4444
    (by norm_num) (by norm_num) (by norm_num) (by norm_num)
    rfl rfl rfl rfl
  rw [h.1]
  norm_num

/-! ### C8: set_address touches only the low byte -/

theorem and_FF00_eq (c : Nat) (hc : c < 65536) : c &&& 0xFF00 = c / 256 * 256 := by
  have hc' : c < 2 ^ 16 := by simpa using hc
  apply Nat.eq_of_testBit_eq
  intro i
  have hff : (0xFF00 : Nat) = (2 ^ 8 - 1) <<< 8 := by
    norm_num [Nat.shiftLeft_eq]
  have hdv : c / 256 * 256 = 2 ^ 8 * (c >>> 8) := by
    rw [Nat.shiftRight_eq_div_pow]
    norm_num [Nat.mul_comm]
  rw [hff, hdv, Nat.testBit_and, Nat.testBit_shiftLeft, Nat.testBit_two_pow_sub_one,
      Nat.testBit_mul_pow_two, Nat.testBit_shiftRight]
  by_cases h8 : 8 ≤ i
  · by_cases h16 : i < 16
    · have hplus : 8 + (i - 8) = i := by omega
      simp [h8, h16, hplus, (by omega : i - 8 < 8)]
    · have hz : c.testBit i = false := by
        apply Nat.testBit_lt_two_pow
        calc c < 2 ^ 16 := hc'
          _ ≤ 2 ^ i := Nat.pow_le_pow_right (by norm_num) (by omega)
      have hplus : 8 + (i - 8) = i := by omega
      simp [h8, hz, (by omega : ¬ (i - 8 < 8)), hplus]
  · simp [h8]

/-- C8: for a valid new address `a` and current ADDRESS-register content
`c`, `set_address` EEPROM-writes exactly `(c &&& 0xFF00) ||| a`, which is
`c / 256 * 256 + a`: the high byte of the register is preserved untouched
(`/ 256` unchanged) and the low byte replaced by `a` (`% 256 = a`); the
bus trace is the register read followed by the EEPROM write sequence for
that value, and its outcome (with transport errors wrapped into the
taxonomy) is that of the EEPROM sequence. -/
theorem claim_C8_set_address_low_byte (ε : Type) (addr a c : Nat)
    (rr : Except ε (Nat × Nat × Nat)) (r1 r2 : Option ε)
    (ha1 : 1 ≤ a) (ha2 : a ≤ 0x80) (hc : c < 65536)
    (hread : (i2c_read (ε := ε) addr .ADDRESS rr).2 = .ok c) :
    (set_address (ε := ε) addr a rr r1 r2).1 =
      .writeRead addr [0x2E] 3 ::
        (eeprom_write (ε := ε) addr .ADDRESS ((c &&& 0xFF00) ||| a) r1 r2).1 ∧
    (∀ e : ε,
      (eeprom_write (ε := ε) addr .ADDRESS ((c &&& 0xFF00) ||| a) r1 r2).2 =
          .error e →
        (set_address (ε := ε) addr a rr r1 r2).2 = .error (.I2C e)) ∧
    ((eeprom_write (ε := ε) addr .ADDRESS ((c &&& 0xFF00) ||| a) r1 r2).2 =
        .ok () →
      (set_address (ε := ε) addr a rr r1 r2).2 = .ok ()) ∧
    (c &&& 0xFF00) ||| a = c / 256 * 256 + a ∧
    ((c &&& 0xFF00) ||| a) / 256 = c / 256 ∧
    ((c &&& 0xFF00) ||| a) % 256 = a := by
  have hval : ¬ (a > 0x80 ∨ a = 0) := by omega
  have er := i2c_read_eq_pair (ε := ε) addr .ADDRESS rr c hread
  have hv : (c &&& 0xFF00) ||| a = c / 256 * 256 + a := by
    rw [and_FF00_eq c hc]
    have h := Nat.mul_add_lt_is_or (i := 8) (b := a) (by norm_num; omega) (c / 256)
    calc c / 256 * 256 ||| a = 2 ^ 8 * (c / 256) ||| a := by
          rw [Nat.mul_comm]
      _ = 2 ^ 8 * (c / 256) + a := h.symm
      _ = c / 256 * 256 + a := by ring
  rcases hEE : eeprom_write (ε := ε) addr .ADDRESS ((c &&& 0xFF00) ||| a) r1 r2
    with ⟨t2, res2⟩
  refine ⟨?_, ?_, ?_, hv, by omega, by omega⟩
  · cases res2 <;>
      simp [set_address, validate_address, hval, er, hEE, Register.toByte]
  · intro e he
    simp at he
    subst he
    simp [set_address, validate_address, hval, er, hEE, Register.toByte]
  · intro hok
    simp at hok
    subst hok
    simp [set_address, validate_address, hval, er, hEE, Register.toByte]

/-- Concrete instantiation of `claim_C8_set_address_low_byte`: with the
ADDRESS register reading `0xBE5A` and new address `0x10`, the value
EEPROM-written is `0xBE10`: high byte `0xBE` preserved, low byte replaced. -/
theorem claim_C8_set_address_low_byte_witness :
    (0xBE5A &&& 0xFF00) ||| 0x10 = 0xBE5A / 256 * 256 + 0x10 ∧
    ((0xBE5A &&& 0xFF00) ||| 0x10) / 256 = 0xBE5A / 256 ∧
    ((0xBE5A &&& 0xFF00) ||| 0x10) % 256 = 0x10 := by
  have h := claim_C8_set_address_low_byte Unit 0x5A 0x10 0xBE5A
    (.ok (0x5A, 0xBE, crc8 [0xB4, 0x2E, 0xB5, 0x5A, 0xBE])) none none
    (by norm_num) (by norm_num) (by norm_num) rfl
  exact ⟨h.2.2.2.1, h.2.2.2.2.1, h.2.2.2.2.2⟩

/-! ### C9: error propagation and the taxonomy -/

/-- C9 counterexample: with the transport error type instantiated to
`Nat` and the transport failing with the value 42, `set_min` surfaces the
bare transport value `42 : Nat` to its caller, whereas an operation that
surfaces its failure as a member of the closed taxonomy — as the claim
asserts of every fallible operation, set_min and set_max included —
returns `Error.I2C 42`, as `read_ambient` does on the same transport
failure.  `set_min`/`set_max` (whose Rust signatures are
`Result<(), I2CError>`, not `Result<(), Error<I2CError>>`) therefore do
not surface their failures as members of the taxonomy. -/
theorem claim_C9_counterexample :
    (set_min (ε := Nat) 0x5A (.Raw 0) (some 42) none).2 = Except.error 42 ∧
    (read_ambient (ε := Nat) 0x5A (.error 42)).2 =
      Except.error (Error.I2C 42) := by
  constructor
  · simp [set_min, eeprom_write, i2c_write]
  · simp [read_ambient, i2c_read]

/-- C9 (amended): every fallible operation surfaces its failure to the
caller, with no retry, suppression or replacement by a default value;
operations whose result type is the closed taxonomy (the register reads,
`get_id`, session construction) surface taxonomy members — a transport
failure arrives wrapped as `Error.I2C`, a bad address as
`Error.InvalidAddress` — while `set_min` and `set_max` surface the bare
transport error, unwrapped. -/
theorem claim_C9_error_propagation (ε : Type) (addr : Nat) (t : Temperature)
    (e : ε) (r2 : Option ε) (rr : Except ε (Nat × Nat × Nat)) :
    ((set_min (ε := ε) addr t (some e) r2).2 = .error e) ∧
    ((set_min (ε := ε) addr t none (some e)).2 = .error e) ∧
    ((set_max (ε := ε) addr t (some e) r2).2 = .error e) ∧
    ((set_max (ε := ε) addr t none (some e)).2 = .error e) ∧
    ((read_object (ε := ε) addr (.error e)).2 = .error (.I2C e)) ∧
    ((read_object2 (ε := ε) addr (.error e)).2 = .error (.I2C e)) ∧
    ((read_ambient (ε := ε) addr (.error e)).2 = .error (.I2C e)) ∧
    ((get_min (ε := ε) addr (.error e)).2 = .error (.I2C e)) ∧
    ((get_max (ε := ε) addr (.error e)).2 = .error (.I2C e)) ∧
    ((get_address (ε := ε) addr (.error e)).2 = .error (.I2C e)) ∧
    ((get_id (ε := ε) addr (.error e) rr rr rr).2 = .error (.I2C e)) ∧
    (with_address (ε := ε) 0 = ([], .error (.InvalidAddress 0))) := by
  refine ⟨?_, ?_, ?_, ?_, ?_, ?_, ?_, ?_, ?_, ?_, ?_, ?_⟩
  · simp [set_min, eeprom_write, i2c_write]
  · simp [set_min, eeprom_write, i2c_write]
  · simp [set_max, eeprom_write, i2c_write]
  · simp [set_max, eeprom_write, i2c_write]
  · simp [read_object, i2c_read]
  · simp [read_object2, i2c_read]
  · simp [read_ambient, i2c_read]
  · simp [get_min, i2c_read]
  · simp [get_max, i2c_read]
  · simp [get_address, i2c_read, Except.map]
  · simp [get_id, i2c_read]
  · simp [with_address, validate_address]

end Mlx90614
